import Mathlib

/-!
# Verification of the TestRail Prometheus exporter

Shallow embedding of the repository's Python sources:

* `src/custom_status_config.py` — `load_custom_status_config`
* `src/gauges.py` — the gauge registry (modelled as the `Surface` record)
* `src/testrail_exporter.py` — `expose_test_reports`, `format_timestamp`,
  and the error behaviour of `fetch_requested_data`

Python dictionaries coming from JSON are modelled as association lists of
scalar JSON values; the list-valued top-level keys of the three API
responses (`runs`, `tests`, `results`) are modelled as an
`Option (List JObj)` (present-with-list / absent).  HTTP transport is
modelled by the `Fetch` outcome type: `fetch_requested_data` catches
`requests` exceptions and returns `None` (constructor `transportFail`),
`.json()` may raise `ValueError` (constructor `decodeFail`), or decoding
succeeds (`ok`).  Python exceptions that the exporter can raise are the
`PyErr` type; an uncaught exception leaves the mutated gauge state behind,
so stateful functions return `Surface × Option PyErr`.
-/

/-- A scalar JSON value as it appears inside the API payload objects. -/
inductive JVal where
  | num : Int → JVal
  | str : String → JVal
  | bool : Bool → JVal
  | null : JVal
deriving DecidableEq, Repr

/-- A Python dict parsed from JSON: association list of scalar values. -/
abbrev JObj := List (String × JVal)

/-- The Python exceptions the exporter's code paths can raise. -/
inductive PyErr where
  | keyError : String → PyErr
  | valueError : String → PyErr
  | typeError : String → PyErr
  | attributeError : String → PyErr
deriving DecidableEq, Repr

/-- Python `d.get(k)` / `d.get(k, default)` lookup (first binding wins;
JSON objects have unique keys). -/
def objGet : JObj → String → Option JVal
  | [], _ => none
  | (k', v) :: rest, k => if k' = k then some v else objGet rest k

/-- Python `d.get(k, default)`. -/
def objGetD (o : JObj) (k : String) (d : JVal) : JVal :=
  (objGet o k).getD d

/-- Python `d[k]`: raises `KeyError` when the key is absent. -/
def objIndex (o : JObj) (k : String) : Except PyErr JVal :=
  match objGet o k with
  | some v => .ok v
  | none => .error (.keyError k)

/-- Python `k in d`. -/
def objHasKey (o : JObj) (k : String) : Bool :=
  (objGet o k).isSome

/-- Python truthiness of a scalar JSON value. -/
def JVal.truthy : JVal → Bool
  | .bool b => b
  | .num n => n != 0
  | .str s => s != ""
  | .null => false

/-- Python `str()` of a scalar JSON value. -/
def pyStr : JVal → String
  | .num n => toString n
  | .str s => s
  | .bool b => if b then "True" else "False"
  | .null => "None"

/-- Python `int()` applied to a scalar JSON value: identity on ints,
0/1 on bools, parse on strings (`ValueError` when unparsable),
`TypeError` on `None`. -/
def pyIntOfJVal : JVal → Except PyErr Int
  | .num n => .ok n
  | .bool b => .ok (if b then 1 else 0)
  | .str s =>
    match s.toInt? with
    | some n => .ok n
    | none => .error (.valueError s)
  | .null => .error (.typeError "int of None")

/-- The call `datetime.fromtimestamp(n, tz=utc).strftime("%Y-%m-%d %H:%M:%S")`,
modelled abstractly as an injective rendering of the epoch second (the
datetime library is an external collaborator; no claim inspects the
concrete text of the formatted date). -/
def strftimeUTC (n : Int) : String :=
  "utc:" ++ toString n

/-- The function `format_timestamp` (testrail_exporter.py lines 79-81):
`int(timestamp)` then UTC strftime. -/
def format_timestamp (t : JVal) : Except PyErr String :=
  match pyIntOfJVal t with
  | .ok n => .ok (strftimeUTC n)
  | .error e => .error e

/-- Does `pat` occur at the head of the character list? -/
def patAt : List Char → List Char → Bool
  | [], _ => true
  | _ :: _, [] => false
  | p :: ps, c :: cs => p == c && patAt ps cs

/-- One fuelled pass of Python `str.replace`: replace non-overlapping
occurrences left to right.  Fuel = input length suffices because the
pattern used by the source (`"_count"`) is nonempty, so each step
consumes at least one character. -/
def replaceFuel (pat rep : List Char) : Nat → List Char → List Char
  | _, [] => []
  | 0, l => l
  | fuel + 1, c :: cs =>
    if patAt pat (c :: cs) then
      rep ++ replaceFuel pat rep fuel (List.drop (pat.length - 1) cs)
    else
      c :: replaceFuel pat rep fuel cs

/-- Python `s.replace(pat, rep)` for a nonempty pattern: replaces every
non-overlapping occurrence, left to right. -/
def pyReplace (s pat rep : String) : String :=
  String.mk (replaceFuel pat.data rep.data s.data.length s.data)

/-- Modelled from the spec: "derived by stripping a trailing `_count`
suffix from the field name".  This is the spec's derivation rule, stated
for comparison against the source's `field_name.replace('_count', '')`. -/
def stripTrailingCount (s : String) : String :=
  if List.isSuffixOf "_count".data s.data then
    String.mk (s.data.take (s.data.length - 6))
  else s

/-- One value of the mapping returned by `load_custom_status_config`
(custom_status_config.py lines 75-80). -/
structure StatusEntry where
  status_id : JVal
  field_name : String
  metric_name : JVal
  description : JVal
deriving DecidableEq, Repr

/-- The situations `load_custom_status_config` can encounter for its
configuration file: absent path (`os.path.exists` false), an exception
while opening/reading, a `json.JSONDecodeError`, or a parsed document
whose `custom_statuses` key is the given optional list. -/
inductive ConfigSource where
  | missing
  | readError
  | parseError
  | parsed : Option (List JObj) → ConfigSource

/-- The body of the per-entry loop (custom_status_config.py lines 69-80):
skip an entry with a falsy/absent `field_name`; otherwise build the
`StatusEntry`.  The default argument of
`status.get('metric_name', field_name.replace('_count', ''))` is
evaluated eagerly in Python, so a truthy non-string `field_name` raises
`AttributeError` (no `.replace` attribute), which the caller's
`except Exception` turns into an empty mapping.  A present
`description` key is honored; only when it is absent is the default
"Number of ... tests" synthesized from `status.get('metric_name',
field_name)` (that f-string interpolation never raises). -/
def processEntry (status : JObj) : Except PyErr (Option (String × StatusEntry)) :=
  let fv := objGetD status "field_name" .null
  if fv.truthy then
    match fv with
    | .str field_name =>
      .ok (some (field_name,
        { status_id := objGetD status "status_id" .null
          field_name := field_name
          metric_name := objGetD status "metric_name" (.str (pyReplace field_name "_count" ""))
          description := objGetD status "description"
            (.str ("Number of " ++ pyStr (objGetD status "metric_name" (.str field_name)) ++ " tests")) }))
    | _ => .error (.attributeError "replace")
  else
    .ok none

/-- Python dict assignment `m[k] = v`: overwrite in place when the key
exists (keeping its position), append otherwise. -/
def dictInsert : List (String × StatusEntry) → String → StatusEntry → List (String × StatusEntry)
  | [], k, v => [(k, v)]
  | (k', v') :: rest, k, v =>
    if k' = k then (k, v) :: rest else (k', v') :: dictInsert rest k v

/-- The `for status in custom_statuses` loop accumulating `status_map`
(custom_status_config.py lines 68-80); an exception anywhere aborts the
whole loop (it is caught by `except Exception`, yielding `{}`). -/
def goEntries : List JObj → List (String × StatusEntry) → Except PyErr (List (String × StatusEntry))
  | [], m => .ok m
  | st :: rest, m =>
    match processEntry st with
    | .error e => .error e
    | .ok none => goEntries rest m
    | .ok (some (k, v)) => goEntries rest (dictInsert m k v)

/-- The function `load_custom_status_config` (custom_status_config.py lines 28-90):
returns the field-name-keyed mapping, or `[]` when the file is missing,
unreadable, fails to parse, has no/empty `custom_statuses`, or any
exception escapes the entry loop. -/
def load_custom_status_config : ConfigSource → List (String × StatusEntry)
  | .missing => []
  | .readError => []
  | .parseError => []
  | .parsed doc =>
    let custom_statuses := doc.getD []
    if custom_statuses.isEmpty then []
    else
      match goEntries custom_statuses [] with
      | .ok m => m
      | .error _ => []

/-- Label tuple of the `testrail_run_info` gauge (gauges.py lines 24-25;
set at testrail_exporter.py lines 130-133). -/
structure RunInfoLabels where
  run_id : JVal
  created_date : String
  name : JVal
  passed : JVal
  failed : JVal
  retest : JVal
  untested : JVal
  blocked : JVal
deriving DecidableEq, Repr

/-- Label tuple of the five standard count gauges and of every custom
status gauge (gauges.py lines 27-31 and 61). -/
structure CountLabels where
  run_id : JVal
  created_date : String
deriving DecidableEq, Repr

/-- Label tuple of the `testrail_test_result` gauge (gauges.py
lines 33-34). -/
structure ResultLabels where
  run_id : JVal
  test_id : JVal
  title : JVal
  status_id : JVal
  created_date : String
  comment : JVal
deriving DecidableEq, Repr

/-- A Prometheus gauge's data points: one value per label tuple. -/
abbrev Gauge (α : Type) := List (α × JVal)

/-- Drop any existing data point for label tuple `k`. -/
def gRemove [DecidableEq α] : Gauge α → α → Gauge α
  | [], _ => []
  | (k', v') :: rest, k =>
    if k' = k then gRemove rest k else (k', v') :: gRemove rest k

/-- Python `gauge.labels(k).set(v)`: last-write-wins per label tuple. -/
def gset [DecidableEq α] (g : Gauge α) (k : α) (v : JVal) : Gauge α :=
  gRemove g k ++ [(k, v)]

/-- The value currently published for label tuple `k`, if any. -/
def glookup [DecidableEq α] : Gauge α → α → Option JVal
  | [], _ => none
  | (k', v') :: rest, k => if k' = k then some v' else glookup rest k

/-- The Metric Surface: the module-level gauges of gauges.py plus the
dynamically created custom status gauges keyed by field name. -/
structure Surface where
  run_info : Gauge RunInfoLabels
  passed_count : Gauge CountLabels
  failed_count : Gauge CountLabels
  retest_count : Gauge CountLabels
  untested_count : Gauge CountLabels
  blocked_count : Gauge CountLabels
  result_info : Gauge ResultLabels
  custom : List (String × Gauge CountLabels)
deriving Repr

/-- The surface right after the block of `clear()` calls: every standard
gauge empty and one empty gauge per configured custom field. -/
def clearedSurface (customFields : List String) : Surface :=
  { run_info := []
    passed_count := []
    failed_count := []
    retest_count := []
    untested_count := []
    blocked_count := []
    result_info := []
    custom := customFields.map (fun f => (f, [])) }

/-- The `clear()` calls at the start of `expose_test_reports`
(testrail_exporter.py lines 96-107): each gauge's prior points are
discarded; the custom gauge dict keeps its keys (the configured fields)
with every gauge emptied.  The result does not depend on the prior
surface. -/
def clearAll (customFields : List String) (_s : Surface) : Surface :=
  clearedSurface customFields

/-- Lookup of `custom_status_gauges[f]`: the dynamic gauge registered for field `f`. -/
def customGauge : List (String × Gauge CountLabels) → String → Option (Gauge CountLabels)
  | [], _ => none
  | (f', g) :: rest, f => if f' = f then some g else customGauge rest f

/-- Outcome of one `fetch_requested_data(url).json()` round trip
(testrail_exporter.py lines 66-76): `transportFail` when
`fetch_requested_data` caught a `RequestException` and returned `None`;
`decodeFail` when `.json()` raised `ValueError`; `ok` carries the single
list-valued key the caller reads (`runs` / `tests` / `results`), `none`
when that key is absent from the decoded object. -/
inductive Fetch where
  | transportFail
  | decodeFail
  | ok : Option (List JObj) → Fetch

/-- The per-run values read before the first gauge mutation
(testrail_exporter.py lines 126-133), in source evaluation order:
`runx['id']` (debug line 126), `runx['created_on']` via
`format_timestamp` (line 128), then the label arguments `runx['name']`
and the five `*_count` fields (lines 130-133). -/
structure RunHeader where
  run_id : JVal
  created_date : String
  name : JVal
  passed : JVal
  failed : JVal
  retest : JVal
  untested : JVal
  blocked : JVal
deriving DecidableEq, Repr

/-- Extraction of the `RunHeader` values; the first missing key raises
`KeyError`, and a non-integer `created_on` raises from `int()`. -/
def runHeader (r : JObj) : Except PyErr RunHeader :=
  match objIndex r "id" with
  | .error e => .error e
  | .ok run_id =>
    match objIndex r "created_on" with
    | .error e => .error e
    | .ok created_on =>
      match format_timestamp created_on with
      | .error e => .error e
      | .ok created_date =>
        match objIndex r "name" with
        | .error e => .error e
        | .ok name =>
          match objIndex r "passed_count" with
          | .error e => .error e
          | .ok passed =>
            match objIndex r "failed_count" with
            | .error e => .error e
            | .ok failed =>
              match objIndex r "retest_count" with
              | .error e => .error e
              | .ok retest =>
                match objIndex r "untested_count" with
                | .error e => .error e
                | .ok untested =>
                  match objIndex r "blocked_count" with
                  | .error e => .error e
                  | .ok blocked =>
                    .ok ⟨run_id, created_date, name, passed, failed, retest, untested, blocked⟩

/-- The run-info `set(1)` and the five standard count `set`s
(testrail_exporter.py lines 130-144), all keyed by
`(run_id, created_date)` and fed from the run object's own counts. -/
def publishRunSummary (h : RunHeader) (s : Surface) : Surface :=
  let s1 := { s with run_info := gset s.run_info ⟨h.run_id, h.created_date, h.name, h.passed, h.failed, h.retest, h.untested, h.blocked⟩ (.num 1) }
  let s2 := { s1 with passed_count := gset s1.passed_count ⟨h.run_id, h.created_date⟩ h.passed }
  let s3 := { s2 with failed_count := gset s2.failed_count ⟨h.run_id, h.created_date⟩ h.failed }
  let s4 := { s3 with retest_count := gset s3.retest_count ⟨h.run_id, h.created_date⟩ h.retest }
  let s5 := { s4 with untested_count := gset s4.untested_count ⟨h.run_id, h.created_date⟩ h.untested }
  { s5 with blocked_count := gset s5.blocked_count ⟨h.run_id, h.created_date⟩ h.blocked }

/-- Update the gauge registered under field name `f`. -/
def setCustomList : List (String × Gauge CountLabels) → String → CountLabels → JVal → List (String × Gauge CountLabels)
  | [], _, _, _ => []
  | (f', g) :: rest, f, k, v =>
    if f' = f then (f', gset g k v) :: setCustomList rest f k v
    else (f', g) :: setCustomList rest f k v

/-- The custom status loop (testrail_exporter.py lines 147-155): for each
configured field, publish `runx.get(field_name, 0)` only when
`field_name in runx`. -/
def setCustoms (fields : List String) (r : JObj) (run_id : JVal) (created_date : String) (s : Surface) : Surface :=
  match fields with
  | [] => s
  | f :: rest =>
    let s' :=
      if objHasKey r f then
        { s with custom := setCustomList s.custom f ⟨run_id, created_date⟩ (objGetD r f (.num 0)) }
      else s
    setCustoms rest r run_id created_date s'

/-- Python dict assignment into `test_id_to_title`. -/
def jInsert : List (JVal × JVal) → JVal → JVal → List (JVal × JVal)
  | [], k, v => [(k, v)]
  | (k', v') :: rest, k, v =>
    if k' = k then (k, v) :: rest else (k', v') :: jInsert rest k v

/-- Python `test_id_to_title.get(k)`. -/
def jLookup : List (JVal × JVal) → JVal → Option JVal
  | [], _ => none
  | (k', v') :: rest, k => if k' = k then some v' else jLookup rest k

/-- The `for test_case in test_cases['tests']` loop
(testrail_exporter.py lines 165-167): each iteration evaluates
`test_case['id']` then `test_case['title']` (debug line 166) and stores
the pair; a missing key raises `KeyError`. -/
def buildLookup : List JObj → List (JVal × JVal) → Except PyErr (List (JVal × JVal))
  | [], m => .ok m
  | tc :: rest, m =>
    match objIndex tc "id" with
    | .error e => .error e
    | .ok i =>
      match objIndex tc "title" with
      | .error e => .error e
      | .ok t => buildLookup rest (jInsert m i t)

/-- The test-case phase (testrail_exporter.py lines 161-167 inside the
`try`): `fetch_requested_data` returning `None` makes
`tests_response.json()` raise `AttributeError`; a decode failure raises
`ValueError`; on success, `test_cases['tests']` raises `KeyError` when
the key is absent, else the title lookup is built. -/
def fetchTitles : Fetch → Except PyErr (List (JVal × JVal))
  | .transportFail => .error (.attributeError "json")
  | .decodeFail => .error (.valueError "decode")
  | .ok payload =>
    match payload with
    | none => .error (.keyError "tests")
    | some tcs => buildLookup tcs []

/-- The call `test_result_info.labels(...).set(1)` (testrail_exporter.py
lines 185-189). -/
def setResultInfo (run_id test_id title status_id : JVal) (created_date : String) (comment : JVal) (s : Surface) : Surface :=
  { s with result_info := gset s.result_info ⟨run_id, test_id, title, status_id, created_date, comment⟩ (.num 1) }

/-- The `for result in test_results.get('results', [])` loop
(testrail_exporter.py lines 178-189): results with `status_id == 10` are
skipped before any further field access; otherwise `test_id` resolves a
title (default `"Unknown Title"`), `created_on` is formatted (a
non-integer raises `ValueError`, caught by the enclosing handler), and
`comment` is read last when the labels are evaluated. -/
def publishResults (run_id : JVal) (titles : List (JVal × JVal)) : List JObj → Surface → Surface × Option PyErr
  | [], s => (s, none)
  | res :: rest, s =>
    match objIndex res "status_id" with
    | .error e => (s, some e)
    | .ok st =>
      if st ≠ JVal.num 10 then
        match objIndex res "test_id" with
        | .error e => (s, some e)
        | .ok tid =>
          let title := (jLookup titles tid).getD (.str "Unknown Title")
          match objIndex res "created_on" with
          | .error e => (s, some e)
          | .ok co =>
            match format_timestamp co with
            | .error e => (s, some e)
            | .ok created_date =>
              match objIndex res "comment" with
              | .error e => (s, some e)
              | .ok cm =>
                publishResults run_id titles rest (setResultInfo run_id tid title st created_date cm s)
      else publishResults run_id titles rest s

/-- The result phase (testrail_exporter.py lines 174-189 inside the
`try`): transport failure raises `AttributeError` from `None.json()`,
decode failure raises `ValueError`, success iterates
`test_results.get('results', [])`. -/
def processResults (run_id : JVal) (titles : List (JVal × JVal)) (f : Fetch) (s : Surface) : Surface × Option PyErr :=
  match f with
  | .transportFail => (s, some (.attributeError "json"))
  | .decodeFail => (s, some (.valueError "decode"))
  | .ok payload => publishResults run_id titles (payload.getD []) s

/-- The effect of an `except ValueError: continue` handler on the
exception leaving a block: a `ValueError` is swallowed (the loop
proceeds), anything else keeps propagating. -/
def catchVE : Option PyErr → Option PyErr
  | some (.valueError _) => none
  | e => e

/-- The per-run detail phases (testrail_exporter.py lines 157-192),
entered with the summary and custom counts already published: the
test-case phase and the result phase each sit in a
`try ... except ValueError: continue`, so only a `ValueError` is
converted into proceeding to the next run; every other exception
propagates with the surface mutations kept. -/
def processRunDetails (tf rf : JVal → Fetch) (h : RunHeader) (s : Surface) : Surface × Option PyErr :=
  match fetchTitles (tf h.run_id) with
  | .error e => (s, catchVE (some e))
  | .ok titles =>
    ((processResults h.run_id titles (rf h.run_id) s).1,
     catchVE (processResults h.run_id titles (rf h.run_id) s).2)

/-- One iteration of the `for runx in runs.get('runs', [])` loop
(testrail_exporter.py lines 124-192).  Runs whose
`runx.get('is_completed', False)` is falsy are skipped entirely.  The
header values are read (a failure there propagates — line 128 sits in no
`try`), the summary and custom counts are published, then the detail
phases run. -/
def processRun (fields : List String) (testsFetch resultsFetch : JVal → Fetch) (r : JObj) (s : Surface) : Surface × Option PyErr :=
  if (objGetD r "is_completed" (.bool false)).truthy then
    match runHeader r with
    | .error e => (s, some e)
    | .ok h =>
      processRunDetails testsFetch resultsFetch h
        (setCustoms fields r h.run_id h.created_date (publishRunSummary h s))
  else (s, none)

/-- The whole run loop: an uncaught exception from one run aborts the
remaining runs (and propagates out of `expose_test_reports`). -/
def processRuns (fields : List String) (testsFetch resultsFetch : JVal → Fetch) : List JObj → Surface → Surface × Option PyErr
  | [], s => (s, none)
  | r :: rest, s =>
    match processRun fields testsFetch resultsFetch r s with
    | (s', some e) => (s', some e)
    | (s', none) => processRuns fields testsFetch resultsFetch rest s'

/-- The function `expose_test_reports` (testrail_exporter.py lines 84-192).  The
gauges are cleared first; the run-listing fetch is then consumed inside
`try ... except ValueError: return` (lines 117-122): a decode failure
returns normally, while a transport failure makes `runs_response.json()`
raise `AttributeError` on `None`, which that handler does not catch.
The surface argument is the module-level gauge state at entry; the
auth/project/lookback parameters only shape the request URLs and are
absorbed into the three fetch oracles. -/
def expose_test_reports (s : Surface) (fields : List String) (runsFetch : Fetch) (testsFetch resultsFetch : JVal → Fetch) : Surface × Option PyErr :=
  let s0 := clearAll fields s
  match runsFetch with
  | .transportFail => (s0, some (.attributeError "json"))
  | .decodeFail => (s0, none)
  | .ok payload => processRuns fields testsFetch resultsFetch (payload.getD []) s0

/-- The run ids of the runs contained in a run-listing response
(empty on a failed or run-less response). -/
def runIdsOfFetch : Fetch → List JVal
  | .ok (some l) => l.filterMap (fun r => objGet r "id")
  | _ => []

/-- The run-id labels of a count gauge's data points. -/
def countRunIds (g : Gauge CountLabels) : List JVal :=
  g.map (fun e => e.1.run_id)

/-- The run-id labels published across all custom status gauges. -/
def customRunIds (c : List (String × Gauge CountLabels)) : List JVal :=
  (c.map (fun p => countRunIds p.2)).flatten

/-- Every run-id label appearing on any series of the surface; a run is
on the Metric Surface exactly when its id is in this list. -/
def runIdsIn (s : Surface) : List JVal :=
  s.run_info.map (fun e => e.1.run_id) ++
  (countRunIds s.passed_count ++
   (countRunIds s.failed_count ++
    (countRunIds s.retest_count ++
     (countRunIds s.untested_count ++
      (countRunIds s.blocked_count ++
       (s.result_info.map (fun e => e.1.run_id) ++
        customRunIds s.custom))))))

/-- A well-formed completed run payload with id 1. -/
def runObjA : JObj :=
  [("id", .num 1), ("is_completed", .bool true), ("name", .str "alpha"),
   ("created_on", .num 100), ("passed_count", .num 3), ("failed_count", .num 1),
   ("retest_count", .num 0), ("untested_count", .num 2), ("blocked_count", .num 0)]

/-- A well-formed completed run payload with id 2. -/
def runObjB : JObj :=
  [("id", .num 2), ("is_completed", .bool true), ("name", .str "beta"),
   ("created_on", .num 200), ("passed_count", .num 5), ("failed_count", .num 0),
   ("retest_count", .num 1), ("untested_count", .num 0), ("blocked_count", .num 1)]

/-- A completed run payload lacking the `name` field. -/
def runNoName : JObj :=
  [("id", .num 7), ("is_completed", .bool true), ("created_on", .num 50),
   ("passed_count", .num 1), ("failed_count", .num 0), ("retest_count", .num 0),
   ("untested_count", .num 0), ("blocked_count", .num 0)]

/-- A test-case oracle whose fetch for run 1 suffers a transport
failure and succeeds (with an empty case list) elsewhere. -/
def testsFetchFailRun1 : JVal → Fetch :=
  fun v => if v = JVal.num 1 then .transportFail else .ok (some [])

/-- An oracle that always returns an empty list successfully. -/
def emptyFetch : JVal → Fetch :=
  fun _ => .ok (some [])

/-- The cycle used to analyse a per-run transport failure: two completed
runs are listed; the test-case fetch for run 1 fails at transport level,
everything else succeeds. -/
def c2Cycle : Surface × Option PyErr :=
  expose_test_reports (clearedSurface []) [] (.ok (some [runObjA, runObjB]))
    testsFetchFailRun1 emptyFetch

/-- Run `runObjA` extended with a custom status field that no gauge is
registered for. -/
def runObjAExtra : JObj := runObjA ++ [("extra", .num 9)]

/-- Duplicate-field configuration entries sharing field name `f`. -/
def cfgEntryA : JObj := [("field_name", .str "f"), ("metric_name", .str "a")]

/-- Second configuration entry with the same field name `f`. -/
def cfgEntryB : JObj := [("field_name", .str "f"), ("metric_name", .str "b")]

theorem objIndex_ok_iff (o : JObj) (k : String) (v : JVal) :
    objIndex o k = .ok v ↔ objGet o k = some v := by
  unfold objIndex
  cases objGet o k <;> simp

theorem gRemove_subset [DecidableEq α] {g : Gauge α} {k : α} {e : α × JVal}
    (he : e ∈ gRemove g k) : e ∈ g := by
  induction g with
  | nil => exact absurd he (by simp [gRemove])
  | cons hd tl ih =>
    obtain ⟨k', v'⟩ := hd
    by_cases hk : k' = k
    · simp only [gRemove, if_pos hk] at he
      exact List.mem_cons_of_mem _ (ih he)
    · simp only [gRemove, if_neg hk, List.mem_cons] at he
      rcases he with he | he
      · exact List.mem_cons.mpr (Or.inl he)
      · exact List.mem_cons_of_mem _ (ih he)

theorem mem_gRemove_of_ne [DecidableEq α] {g : Gauge α} {k : α} {e : α × JVal}
    (he : e ∈ g) (hne : e.1 ≠ k) : e ∈ gRemove g k := by
  induction g with
  | nil => exact absurd he (by simp)
  | cons hd tl ih =>
    obtain ⟨k', v'⟩ := hd
    rcases List.mem_cons.mp he with he | he
    · subst he
      simp only [gRemove, if_neg hne]
      exact List.mem_cons_self _ _
    · by_cases hk : k' = k
      · simpa [gRemove, if_pos hk] using ih he
      · simp only [gRemove, if_neg hk]
        exact List.mem_cons_of_mem _ (ih he)

theorem mem_gset_cases [DecidableEq α] {g : Gauge α} {k : α} {v : JVal} {e : α × JVal}
    (he : e ∈ gset g k v) : e ∈ g ∨ e = (k, v) := by
  rcases List.mem_append.mp he with he | he
  · exact Or.inl (gRemove_subset he)
  · exact Or.inr (List.mem_singleton.mp he)

theorem mem_keys_gset [DecidableEq α] {g : Gauge α} {k' : α} (k : α) (v : JVal)
    (hk : k' ∈ g.map Prod.fst) : k' ∈ (gset g k v).map Prod.fst := by
  by_cases hkk : k' = k
  · subst hkk
    simp [gset]
  · obtain ⟨e, he, hfst⟩ := List.mem_map.mp hk
    refine List.mem_map.mpr ⟨e, ?_, hfst⟩
    exact List.mem_append.mpr (Or.inl (mem_gRemove_of_ne he (by rw [hfst]; exact hkk)))

theorem self_mem_keys_gset [DecidableEq α] (g : Gauge α) (k : α) (v : JVal) :
    k ∈ (gset g k v).map Prod.fst := by
  simp [gset]

theorem glookup_gset_self [DecidableEq α] (g : Gauge α) (k : α) (v : JVal) :
    glookup (gset g k v) k = some v := by
  induction g with
  | nil => simp [gset, gRemove, glookup]
  | cons hd tl ih =>
    obtain ⟨k', v'⟩ := hd
    by_cases hk : k' = k
    · simpa [gset, gRemove, if_pos hk] using ih
    · simpa [gset, gRemove, glookup, if_neg hk] using ih

theorem customRunIds_cleared (fields : List String) :
    customRunIds (fields.map (fun f => (f, []))) = [] := by
  induction fields with
  | nil => rfl
  | cons f rest ih => simp [customRunIds, countRunIds, ih]

theorem runIdsIn_cleared (fields : List String) :
    runIdsIn (clearedSurface fields) = [] := by
  simp [runIdsIn, clearedSurface, countRunIds, customRunIds_cleared]

theorem mem_runid_gset [DecidableEq α] (rid : α → JVal) {g : Gauge α} {k : α} {v' w : JVal}
    (hm : w ∈ (gset g k v').map (fun e => rid e.1)) :
    w ∈ g.map (fun e => rid e.1) ∨ w = rid k := by
  simp only [gset, List.map_append, List.mem_append, List.map_cons, List.map_nil,
    List.mem_singleton] at hm
  rcases hm with hm | hm
  · obtain ⟨e, he, hw⟩ := List.mem_map.mp hm
    exact Or.inl (List.mem_map.mpr ⟨e, gRemove_subset he, hw⟩)
  · exact Or.inr hm

theorem customRunIds_cons (p : String × Gauge CountLabels) (t : List (String × Gauge CountLabels)) :
    customRunIds (p :: t) = countRunIds p.2 ++ customRunIds t := rfl

theorem customRunIds_setCustomList {l : List (String × Gauge CountLabels)} {f : String}
    {k : CountLabels} {v w : JVal}
    (hm : w ∈ customRunIds (setCustomList l f k v)) :
    w ∈ customRunIds l ∨ w = k.run_id := by
  induction l with
  | nil => exact Or.inl hm
  | cons hd tl ih =>
    obtain ⟨f', g⟩ := hd
    by_cases hf : f' = f
    · rw [show setCustomList ((f', g) :: tl) f k v = (f', gset g k v) :: setCustomList tl f k v by
        simp [setCustomList, hf], customRunIds_cons] at hm
      rcases List.mem_append.mp hm with hm | hm
      · rcases mem_runid_gset CountLabels.run_id hm with hm' | hm'
        · exact Or.inl (by rw [customRunIds_cons]; exact List.mem_append.mpr (Or.inl hm'))
        · exact Or.inr hm'
      · rcases ih hm with hm' | hm'
        · exact Or.inl (by rw [customRunIds_cons]; exact List.mem_append.mpr (Or.inr hm'))
        · exact Or.inr hm'
    · rw [show setCustomList ((f', g) :: tl) f k v = (f', g) :: setCustomList tl f k v by
        simp [setCustomList, hf], customRunIds_cons] at hm
      rcases List.mem_append.mp hm with hm | hm
      · exact Or.inl (by rw [customRunIds_cons]; exact List.mem_append.mpr (Or.inl hm))
      · rcases ih hm with hm' | hm'
        · exact Or.inl (by rw [customRunIds_cons]; exact List.mem_append.mpr (Or.inr hm'))
        · exact Or.inr hm'

theorem runIds_publishRunSummary {h : RunHeader} {s : Surface} {w : JVal}
    (hm : w ∈ runIdsIn (publishRunSummary h s)) : w ∈ runIdsIn s ∨ w = h.run_id := by
  have e1 : (publishRunSummary h s).run_info =
      gset s.run_info ⟨h.run_id, h.created_date, h.name, h.passed, h.failed, h.retest, h.untested, h.blocked⟩ (.num 1) := rfl
  have e2 : (publishRunSummary h s).passed_count = gset s.passed_count ⟨h.run_id, h.created_date⟩ h.passed := rfl
  have e3 : (publishRunSummary h s).failed_count = gset s.failed_count ⟨h.run_id, h.created_date⟩ h.failed := rfl
  have e4 : (publishRunSummary h s).retest_count = gset s.retest_count ⟨h.run_id, h.created_date⟩ h.retest := rfl
  have e5 : (publishRunSummary h s).untested_count = gset s.untested_count ⟨h.run_id, h.created_date⟩ h.untested := rfl
  have e6 : (publishRunSummary h s).blocked_count = gset s.blocked_count ⟨h.run_id, h.created_date⟩ h.blocked := rfl
  have e7 : (publishRunSummary h s).result_info = s.result_info := rfl
  have e8 : (publishRunSummary h s).custom = s.custom := rfl
  simp only [runIdsIn, e1, e2, e3, e4, e5, e6, e7, e8, countRunIds, List.mem_append] at hm
  rcases hm with hm | hm | hm | hm | hm | hm | hm | hm
  · rcases mem_runid_gset RunInfoLabels.run_id hm with hm' | hm'
    · exact Or.inl (by simp only [runIdsIn, countRunIds, List.mem_append]; tauto)
    · exact Or.inr hm'
  · rcases mem_runid_gset CountLabels.run_id hm with hm' | hm'
    · exact Or.inl (by simp only [runIdsIn, countRunIds, List.mem_append]; tauto)
    · exact Or.inr hm'
  · rcases mem_runid_gset CountLabels.run_id hm with hm' | hm'
    · exact Or.inl (by simp only [runIdsIn, countRunIds, List.mem_append]; tauto)
    · exact Or.inr hm'
  · rcases mem_runid_gset CountLabels.run_id hm with hm' | hm'
    · exact Or.inl (by simp only [runIdsIn, countRunIds, List.mem_append]; tauto)
    · exact Or.inr hm'
  · rcases mem_runid_gset CountLabels.run_id hm with hm' | hm'
    · exact Or.inl (by simp only [runIdsIn, countRunIds, List.mem_append]; tauto)
    · exact Or.inr hm'
  · rcases mem_runid_gset CountLabels.run_id hm with hm' | hm'
    · exact Or.inl (by simp only [runIdsIn, countRunIds, List.mem_append]; tauto)
    · exact Or.inr hm'
  · exact Or.inl (by simp only [runIdsIn, countRunIds, List.mem_append]; tauto)
  · exact Or.inl (by simp only [runIdsIn, countRunIds, List.mem_append]; tauto)

theorem runIds_custom_update {s : Surface} {X : List (String × Gauge CountLabels)} {w : JVal}
    (hm : w ∈ runIdsIn { s with custom := X }) :
    w ∈ runIdsIn s ∨ w ∈ customRunIds X := by
  simp only [runIdsIn, List.mem_append] at hm ⊢
  tauto

theorem runIds_setCustoms {fields : List String} {r : JObj} {rid : JVal} {cd : String}
    {s : Surface} {w : JVal}
    (hm : w ∈ runIdsIn (setCustoms fields r rid cd s)) :
    w ∈ runIdsIn s ∨ w = rid := by
  induction fields generalizing s with
  | nil => exact Or.inl hm
  | cons f rest ih =>
    by_cases hk : objHasKey r f = true
    · have hstep : setCustoms (f :: rest) r rid cd s =
          setCustoms rest r rid cd
            { s with custom := setCustomList s.custom f ⟨rid, cd⟩ (objGetD r f (.num 0)) } := by
        simp [setCustoms, hk]
      rw [hstep] at hm
      rcases ih hm with hm' | hm'
      · rcases runIds_custom_update hm' with hm'' | hm''
        · exact Or.inl hm''
        · rcases customRunIds_setCustomList hm'' with h3 | h3
          · exact Or.inl (by simp only [runIdsIn, List.mem_append]; tauto)
          · exact Or.inr h3
      · exact Or.inr hm'
    · have hstep : setCustoms (f :: rest) r rid cd s = setCustoms rest r rid cd s := by
        simp [setCustoms, hk]
      rw [hstep] at hm
      exact ih hm

theorem runIds_result_update {s : Surface} {X : Gauge ResultLabels} {w : JVal}
    (hm : w ∈ runIdsIn { s with result_info := X }) :
    w ∈ runIdsIn s ∨ w ∈ X.map (fun e => e.1.run_id) := by
  simp only [runIdsIn, List.mem_append] at hm ⊢
  tauto

theorem runIds_publishResults {rid : JVal} {titles : List (JVal × JVal)} {l : List JObj}
    {s : Surface} {w : JVal}
    (hm : w ∈ runIdsIn (publishResults rid titles l s).1) :
    w ∈ runIdsIn s ∨ w = rid := by
  induction l generalizing s with
  | nil => exact Or.inl hm
  | cons res rest ih =>
    unfold publishResults at hm
    split at hm
    · exact Or.inl hm
    · split at hm
      · split at hm
        · exact Or.inl hm
        · split at hm
          · exact Or.inl hm
          · split at hm
            · exact Or.inl hm
            · split at hm
              · exact Or.inl hm
              · rcases ih hm with hm' | hm'
                · rcases runIds_result_update hm' with hm'' | hm''
                  · exact Or.inl hm''
                  · rcases mem_runid_gset ResultLabels.run_id hm'' with h3 | h3
                    · exact Or.inl (by simp only [runIdsIn, List.mem_append]; tauto)
                    · exact Or.inr h3
                · exact Or.inr hm'
      · exact ih hm

theorem runIds_processResults {rid : JVal} {titles : List (JVal × JVal)} {f : Fetch}
    {s : Surface} {w : JVal}
    (hm : w ∈ runIdsIn (processResults rid titles f s).1) :
    w ∈ runIdsIn s ∨ w = rid := by
  unfold processResults at hm
  split at hm
  · exact Or.inl hm
  · exact Or.inl hm
  · exact runIds_publishResults hm

theorem runIds_processRunDetails {tf rf : JVal → Fetch} {h : RunHeader} {s : Surface} {w : JVal}
    (hm : w ∈ runIdsIn (processRunDetails tf rf h s).1) :
    w ∈ runIdsIn s ∨ w = h.run_id := by
  unfold processRunDetails at hm
  split at hm
  · exact Or.inl hm
  · exact runIds_processResults hm

theorem runHeader_run_id {r : JObj} {h : RunHeader} (hH : runHeader r = .ok h) :
    objGet r "id" = some h.run_id := by
  unfold runHeader at hH
  repeat' split at hH
  all_goals simp_all [objIndex_ok_iff]
  subst hH
  rfl

theorem runIds_processRun {fields : List String} {tf rf : JVal → Fetch} {r : JObj}
    {s : Surface} {w : JVal}
    (hm : w ∈ runIdsIn (processRun fields tf rf r s).1) :
    w ∈ runIdsIn s ∨ objGet r "id" = some w := by
  unfold processRun at hm
  split at hm
  · split at hm
    · exact Or.inl hm
    · next h hH =>
        rcases runIds_processRunDetails hm with hm' | hm'
        · rcases runIds_setCustoms hm' with hm'' | hm''
          · rcases runIds_publishRunSummary hm'' with h3 | h3
            · exact Or.inl h3
            · exact Or.inr (by rw [h3]; exact runHeader_run_id hH)
          · exact Or.inr (by rw [hm'']; exact runHeader_run_id hH)
        · exact Or.inr (by rw [hm']; exact runHeader_run_id hH)
  · exact Or.inl hm

theorem runIds_processRuns {fields : List String} {tf rf : JVal → Fetch} {l : List JObj}
    {s : Surface} {w : JVal}
    (hm : w ∈ runIdsIn (processRuns fields tf rf l s).1) :
    w ∈ runIdsIn s ∨ ∃ r ∈ l, objGet r "id" = some w := by
  induction l generalizing s with
  | nil => exact Or.inl hm
  | cons r rest ih =>
    unfold processRuns at hm
    split at hm
    · next s' e heq =>
        have hm2 : w ∈ runIdsIn (processRun fields tf rf r s).1 := by
          rw [heq]; exact hm
        rcases runIds_processRun hm2 with h | h
        · exact Or.inl h
        · exact Or.inr ⟨r, List.mem_cons_self r rest, h⟩
    · next s' heq =>
        rcases ih hm with h | h
        · have hm2 : w ∈ runIdsIn (processRun fields tf rf r s).1 := by
            rw [heq]; exact h
          rcases runIds_processRun hm2 with h2 | h2
          · exact Or.inl h2
          · exact Or.inr ⟨r, List.mem_cons_self r rest, h2⟩
        · obtain ⟨r', hr', hid⟩ := h
          exact Or.inr ⟨r', List.mem_cons_of_mem _ hr', hid⟩

theorem publishResults_frame (rid : JVal) (titles : List (JVal × JVal)) (l : List JObj) (s : Surface) :
    (publishResults rid titles l s).1.untested_count = s.untested_count ∧
    (publishResults rid titles l s).1.custom = s.custom := by
  induction l generalizing s with
  | nil => exact ⟨rfl, rfl⟩
  | cons res rest ih =>
    unfold publishResults
    split
    · exact ⟨rfl, rfl⟩
    · split
      · split
        · exact ⟨rfl, rfl⟩
        · split
          · exact ⟨rfl, rfl⟩
          · split
            · exact ⟨rfl, rfl⟩
            · split
              · exact ⟨rfl, rfl⟩
              · exact ih _
      · exact ih s

theorem processResults_frame (rid : JVal) (titles : List (JVal × JVal)) (f : Fetch) (s : Surface) :
    (processResults rid titles f s).1.untested_count = s.untested_count ∧
    (processResults rid titles f s).1.custom = s.custom := by
  unfold processResults
  split
  · exact ⟨rfl, rfl⟩
  · exact ⟨rfl, rfl⟩
  · exact publishResults_frame _ _ _ _

theorem processRunDetails_frame (tf rf : JVal → Fetch) (h : RunHeader) (s : Surface) :
    (processRunDetails tf rf h s).1.untested_count = s.untested_count ∧
    (processRunDetails tf rf h s).1.custom = s.custom := by
  unfold processRunDetails
  split
  · exact ⟨rfl, rfl⟩
  · exact processResults_frame _ _ _ _

theorem setCustoms_untested (fields : List String) (r : JObj) (rid : JVal) (cd : String) (s : Surface) :
    (setCustoms fields r rid cd s).untested_count = s.untested_count := by
  induction fields generalizing s with
  | nil => rfl
  | cons f rest ih =>
    unfold setCustoms
    split
    · exact ih _
    · exact ih s

theorem processRun_ok_frames (fields : List String) (tf rf : JVal → Fetch) (r : JObj) (s : Surface)
    (h : RunHeader)
    (hC : (objGetD r "is_completed" (.bool false)).truthy = true)
    (hH : runHeader r = .ok h) :
    (processRun fields tf rf r s).1.untested_count =
      (setCustoms fields r h.run_id h.created_date (publishRunSummary h s)).untested_count ∧
    (processRun fields tf rf r s).1.custom =
      (setCustoms fields r h.run_id h.created_date (publishRunSummary h s)).custom := by
  unfold processRun
  rw [if_pos hC, hH]
  exact processRunDetails_frame _ _ _ _

theorem customGauge_setCustomList_ne {l : List (String × Gauge CountLabels)} {fs f : String}
    {k : CountLabels} {v : JVal} (hne : fs ≠ f) :
    customGauge (setCustomList l fs k v) f = customGauge l f := by
  induction l with
  | nil => rfl
  | cons hd tl ih =>
    obtain ⟨f', g⟩ := hd
    by_cases hf : f' = fs
    · have hf2 : f' ≠ f := by rw [hf]; exact hne
      rw [show setCustomList ((f', g) :: tl) fs k v = (f', gset g k v) :: setCustomList tl fs k v by
        simp [setCustomList, hf]]
      simp [customGauge, hf2, ih]
    · rw [show setCustomList ((f', g) :: tl) fs k v = (f', g) :: setCustomList tl fs k v by
        simp [setCustomList, hf]]
      by_cases hff : f' = f
      · simp [customGauge, hff]
      · simp [customGauge, hff, ih]

theorem customGauge_setCustoms_notMem {fields : List String} {r : JObj} {rid : JVal} {cd : String}
    {s : Surface} {f : String} (hf : f ∉ fields) :
    customGauge (setCustoms fields r rid cd s).custom f = customGauge s.custom f := by
  induction fields generalizing s with
  | nil => rfl
  | cons f' rest ih =>
    have hf1 : f' ≠ f := fun h => hf (h ▸ List.mem_cons_self f' rest)
    have hf2 : f ∉ rest := fun h => hf (List.mem_cons_of_mem _ h)
    unfold setCustoms
    split
    · rw [ih hf2]
      exact customGauge_setCustomList_ne hf1
    · exact ih hf2

theorem customGauge_setCustoms_noKey {fields : List String} {r : JObj} {rid : JVal} {cd : String}
    {s : Surface} {f : String} (hk : objHasKey r f = false) :
    customGauge (setCustoms fields r rid cd s).custom f = customGauge s.custom f := by
  induction fields generalizing s with
  | nil => rfl
  | cons f' rest ih =>
    unfold setCustoms
    split
    · next hkk =>
        rw [ih]
        by_cases hff : f' = f
        · subst hff
          rw [hk] at hkk
          exact absurd hkk (by simp)
        · exact customGauge_setCustomList_ne hff
    · exact ih

theorem publishResults_keys_mono {rid : JVal} {titles : List (JVal × JVal)} {l : List JObj}
    {s : Surface} {k : ResultLabels}
    (hk : k ∈ s.result_info.map Prod.fst) :
    k ∈ (publishResults rid titles l s).1.result_info.map Prod.fst := by
  induction l generalizing s with
  | nil => exact hk
  | cons res rest ih =>
    unfold publishResults
    split
    · exact hk
    · split
      · split
        · exact hk
        · split
          · exact hk
          · split
            · exact hk
            · split
              · exact hk
              · exact ih (mem_keys_gset _ _ hk)
      · exact ih hk

theorem mem_keys_dictInsert {m : List (String × StatusEntry)} {k x : String} {v : StatusEntry}
    (hx : x ∈ (dictInsert m k v).map Prod.fst) : x ∈ m.map Prod.fst ∨ x = k := by
  induction m with
  | nil =>
    simp only [dictInsert, List.map_cons, List.map_nil, List.mem_singleton] at hx
    exact Or.inr hx
  | cons hd tl ih =>
    obtain ⟨k', v'⟩ := hd
    by_cases hk : k' = k
    · simp only [dictInsert, if_pos hk, List.map_cons, List.mem_cons] at hx
      rcases hx with hx | hx
      · exact Or.inr hx
      · exact Or.inl (by simp only [List.map_cons, List.mem_cons]; exact Or.inr hx)
    · simp only [dictInsert, if_neg hk, List.map_cons, List.mem_cons] at hx
      rcases hx with hx | hx
      · exact Or.inl (by simp [hx])
      · rcases ih hx with h | h
        · exact Or.inl (by simp only [List.map_cons, List.mem_cons]; exact Or.inr h)
        · exact Or.inr h

theorem nodup_keys_dictInsert {m : List (String × StatusEntry)} {k : String} {v : StatusEntry}
    (hnd : (m.map Prod.fst).Nodup) : ((dictInsert m k v).map Prod.fst).Nodup := by
  induction m with
  | nil => simp [dictInsert]
  | cons hd tl ih =>
    obtain ⟨k', v'⟩ := hd
    simp only [List.map_cons, List.nodup_cons] at hnd
    obtain ⟨hk', hnd⟩ := hnd
    by_cases hk : k' = k
    · subst hk
      have hstep : dictInsert ((k', v') :: tl) k' v = (k', v) :: tl := by simp [dictInsert]
      rw [hstep]
      simp only [List.map_cons, List.nodup_cons]
      exact ⟨hk', hnd⟩
    · simp only [dictInsert, if_neg hk, List.map_cons, List.nodup_cons]
      refine ⟨fun hmem => ?_, ih hnd⟩
      rcases mem_keys_dictInsert hmem with h | h
      · exact hk' h
      · exact hk h

theorem goEntries_nodup {l : List JObj} {m m' : List (String × StatusEntry)}
    (hgo : goEntries l m = .ok m') (hnd : (m.map Prod.fst).Nodup) :
    (m'.map Prod.fst).Nodup := by
  induction l generalizing m with
  | nil =>
    unfold goEntries at hgo
    injection hgo with h
    subst h
    exact hnd
  | cons st rest ih =>
    unfold goEntries at hgo
    split at hgo
    · exact Except.noConfusion hgo
    · exact ih hgo hnd
    · exact ih hgo (nodup_keys_dictInsert hnd)

/-- C1: when the run-listing call fails at transport level,
`fetch_requested_data` returns `None` and `runs_response.json()` raises
`AttributeError`, which the `except ValueError` handler does not catch:
the exception propagates out of `expose_test_reports`.  The Metric
Surface is left fully cleared (the clears ran first and nothing was
set), and the error was logged inside `fetch_requested_data` — but the
function does not return normally, contradicting the claim. -/
theorem run_listing_transport_failure_propagates (s : Surface) (fields : List String)
    (tf rf : JVal → Fetch) :
    expose_test_reports s fields .transportFail tf rf =
      (clearedSurface fields, some (.attributeError "json")) := rfl

/-- C9: two consecutive cycles over the same remote data produce an
identical Metric Surface (and the same cycle outcome), because every
cycle clears all gauges before publishing, so the result does not depend
on the surface at entry. -/
theorem consecutive_cycles_idempotent (s : Surface) (fields : List String) (runsFetch : Fetch)
    (tf rf : JVal → Fetch) :
    expose_test_reports (expose_test_reports s fields runsFetch tf rf).1 fields runsFetch tf rf =
      expose_test_reports s fields runsFetch tf rf := rfl

/-- C3 counterexample: a completed run lacking the `name` field makes
`expose_test_reports` raise `KeyError('name')` (via `runx['name']` at
line 130) instead of resolving a default, refuting "processing never
raises an error" for missing expected fields. -/
theorem missing_run_name_raises_keyError :
    (expose_test_reports (clearedSurface []) [] (.ok (some [runNoName])) emptyFetch emptyFetch).2 =
      some (.keyError "name") := by decide

/-- C5 counterexample: with two configuration entries sharing field name
`f` (metric names `a` then `b`), `load_custom_status_config` keeps the
LATER definition (`b`) — `status_map[field_name] = ...` silently
overwrites — refuting "keeps the earlier definition and ignores the
later one with a warning". -/
theorem duplicate_field_later_definition_wins :
    load_custom_status_config (.parsed (some [cfgEntryA, cfgEntryB])) =
      [("f", ⟨.null, "f", .str "b", .str "Number of b tests"⟩)] ∧
    JVal.str "b" ≠ JVal.str "a" := by decide

/-- C8 counterexample: for field name `a_count_b_count` with no explicit
metric name, the source's `field_name.replace('_count', '')` yields
`a_b` — the non-trailing occurrence of `_count` is removed too — while
the spec's trailing-suffix strip would yield `a_count_b`. -/
theorem metric_name_replace_all_cex :
    load_custom_status_config (.parsed (some [[("field_name", .str "a_count_b_count")]])) =
      [("a_count_b_count",
        ⟨.null, "a_count_b_count", .str "a_b", .str "Number of a_count_b_count tests"⟩)] ∧
    stripTrailingCount "a_count_b_count" = "a_count_b" ∧
    ("a_b" : String) ≠ "a_count_b" := by decide

/-- C10: `load_custom_status_config` is total and returns the empty
mapping on every failure: missing file, unreadable file, undecodable
JSON, and any exception escaping the entry loop (caught by
`except Exception`). -/
theorem load_config_total_empty_on_error :
    (load_custom_status_config .missing = [] ∧
     load_custom_status_config .readError = [] ∧
     load_custom_status_config .parseError = []) ∧
    (∀ (sts : List JObj) (e : PyErr),
       goEntries sts [] = .error e →
       load_custom_status_config (.parsed (some sts)) = []) := by
  refine ⟨⟨rfl, rfl, rfl⟩, ?_⟩
  intro sts e hgo
  cases sts with
  | nil => simp [goEntries] at hgo
  | cons st rest => simp [load_custom_status_config, hgo]

/-- C10 witness: a truthy non-string `field_name` raises inside the
entry loop and the loader degrades to the empty mapping. -/
theorem load_config_total_empty_on_error_witness :
    load_custom_status_config (.parsed (some [[("field_name", .bool true)]])) = [] :=
  load_config_total_empty_on_error.2 [[("field_name", .bool true)]] (.attributeError "replace")
    (by rfl)

/-- C4: the surface a cycle produces is independent of the surface at
entry (all gauges are cleared once, up front, before any set), and a run
id absent from the run-listing response carries no series of any kind on
the post-cycle surface — stale runs disappear. -/
theorem clear_before_set_no_stale_runs :
    (∀ (fields : List String) (runsFetch : Fetch) (tf rf : JVal → Fetch) (s₁ s₂ : Surface),
       expose_test_reports s₁ fields runsFetch tf rf =
         expose_test_reports s₂ fields runsFetch tf rf)
  ∧ (∀ (fields : List String) (runsFetch : Fetch) (tf rf : JVal → Fetch) (s : Surface) (v : JVal),
       v ∉ runIdsOfFetch runsFetch →
       v ∉ runIdsIn (expose_test_reports s fields runsFetch tf rf).1) := by
  constructor
  · intro fields runsFetch tf rf s₁ s₂
    rfl
  · intro fields runsFetch tf rf s v hv hm
    cases runsFetch with
    | transportFail =>
      have hc : v ∈ runIdsIn (clearedSurface fields) := hm
      rw [runIdsIn_cleared] at hc
      exact List.not_mem_nil v hc
    | decodeFail =>
      have hc : v ∈ runIdsIn (clearedSurface fields) := hm
      rw [runIdsIn_cleared] at hc
      exact List.not_mem_nil v hc
    | ok payload =>
      have hm2 : v ∈ runIdsIn (processRuns fields tf rf (payload.getD []) (clearedSurface fields)).1 := hm
      rcases runIds_processRuns hm2 with h | ⟨r, hr, hid⟩
      · rw [runIdsIn_cleared] at h
        exact List.not_mem_nil v h
      · cases payload with
        | none => exact absurd hr (by simp)
        | some l =>
          refine hv ?_
          simp only [runIdsOfFetch]
          exact List.mem_filterMap.mpr ⟨r, by simpa using hr, hid⟩

/-- C4 witness: with only run 1 in the response, run id 2 has no series
after the cycle. -/
theorem clear_before_set_no_stale_runs_witness :
    JVal.num 2 ∉ runIdsIn (expose_test_reports (clearedSurface []) [] (.ok (some [runObjA])) emptyFetch emptyFetch).1 :=
  clear_before_set_no_stale_runs.2 [] (.ok (some [runObjA])) emptyFetch emptyFetch
    (clearedSurface []) (.num 2) (by decide)

theorem publishResults_status_mem {rid : JVal} {titles : List (JVal × JVal)} {l : List JObj}
    {s : Surface} {e : ResultLabels × JVal}
    (he : e ∈ (publishResults rid titles l s).1.result_info) :
    e ∈ s.result_info ∨ e.1.status_id ≠ JVal.num 10 := by
  induction l generalizing s with
  | nil => exact Or.inl he
  | cons res rest ih =>
    unfold publishResults at he
    split at he
    · exact Or.inl he
    · split at he
      · next h10 =>
          split at he
          · exact Or.inl he
          · split at he
            · exact Or.inl he
            · split at he
              · exact Or.inl he
              · split at he
                · exact Or.inl he
                · rcases ih he with he' | he'
                  · rcases mem_gset_cases he' with h2 | h2
                    · exact Or.inl h2
                    · right
                      rw [h2]
                      exact h10
                  · exact Or.inr he'
      · exact ih he

/-- C6: a result whose `status_id` is 10 never yields a
`test_result_info` entry (every entry a cycle adds carries a status
label different from 10), while the run-level untested count gauge is
set from the run object's own `untested_count` field. -/
theorem status10_excluded_untested_from_run :
    (∀ (run_id : JVal) (titles : List (JVal × JVal)) (f : Fetch) (s : Surface)
       (e : ResultLabels × JVal),
       e ∈ (processResults run_id titles f s).1.result_info →
       e ∈ s.result_info ∨ e.1.status_id ≠ JVal.num 10)
  ∧ (∀ (fields : List String) (tf rf : JVal → Fetch) (r : JObj) (s : Surface) (h : RunHeader),
       (objGetD r "is_completed" (.bool false)).truthy = true →
       runHeader r = .ok h →
       glookup (processRun fields tf rf r s).1.untested_count ⟨h.run_id, h.created_date⟩ =
         some h.untested) := by
  constructor
  · intro run_id titles f s e he
    unfold processResults at he
    split at he
    · exact Or.inl he
    · exact Or.inl he
    · exact publishResults_status_mem he
  · intro fields tf rf r s h hC hH
    rw [(processRun_ok_frames fields tf rf r s h hC hH).1, setCustoms_untested]
    exact glookup_gset_self _ _ _

/-- C6 witness: run 1 reports `untested_count = 2`; after processing,
the untested gauge publishes 2 for its label pair. -/
theorem status10_excluded_untested_from_run_witness :
    glookup (processRun [] emptyFetch emptyFetch runObjA (clearedSurface [])).1.untested_count
      ⟨.num 1, strftimeUTC 100⟩ = some (.num 2) :=
  status10_excluded_untested_from_run.2 [] emptyFetch emptyFetch runObjA (clearedSurface [])
    ⟨.num 1, strftimeUTC 100, .str "alpha", .num 3, .num 1, .num 0, .num 2, .num 0⟩
    (by decide) (by rfl)

/-- C7: a custom status field that is not configured (not among the
gauge field names) never changes any custom gauge, even when the run
payload carries it; and a configured field absent from the run payload
leaves its gauge untouched for that run (no zero-fill). -/
theorem custom_field_scoping :
    (∀ (fields : List String) (tf rf : JVal → Fetch) (r : JObj) (s : Surface) (f : String),
       f ∉ fields →
       customGauge (processRun fields tf rf r s).1.custom f = customGauge s.custom f)
  ∧ (∀ (fields : List String) (tf rf : JVal → Fetch) (r : JObj) (s : Surface) (f : String),
       objHasKey r f = false →
       customGauge (processRun fields tf rf r s).1.custom f = customGauge s.custom f) := by
  constructor
  · intro fields tf rf r s f hf
    by_cases hC : (objGetD r "is_completed" (.bool false)).truthy = true
    · cases hH : runHeader r with
      | error e =>
        rw [show processRun fields tf rf r s = (s, some e) by
          unfold processRun; rw [if_pos hC, hH]]
      | ok h =>
        rw [(processRun_ok_frames fields tf rf r s h hC hH).2,
          customGauge_setCustoms_notMem hf]
        rfl
    · rw [show processRun fields tf rf r s = (s, none) by
        unfold processRun; rw [if_neg hC]]
  · intro fields tf rf r s f hk
    by_cases hC : (objGetD r "is_completed" (.bool false)).truthy = true
    · cases hH : runHeader r with
      | error e =>
        rw [show processRun fields tf rf r s = (s, some e) by
          unfold processRun; rw [if_pos hC, hH]]
      | ok h =>
        rw [(processRun_ok_frames fields tf rf r s h hC hH).2,
          customGauge_setCustoms_noKey hk]
        rfl
    · rw [show processRun fields tf rf r s = (s, none) by
        unfold processRun; rw [if_neg hC]]

/-- C7 witness: run 1 carries an unregistered field `extra`; no gauge is
created or changed for it. -/
theorem custom_field_scoping_witness :
    customGauge (processRun [] emptyFetch emptyFetch runObjAExtra (clearedSurface [])).1.custom "extra" =
      customGauge (clearedSurface []).custom "extra" :=
  custom_field_scoping.1 [] emptyFetch emptyFetch runObjAExtra (clearedSurface []) "extra"
    (by decide)

/-- C2: a transport failure on run 1's test-case fetch makes
`tests_response.json()` raise `AttributeError` on `None`; the
`except ValueError` handler does not catch it, so — contrary to the
claim — the exception aborts the rest of the cycle: run 1's
already-published run-info and count series remain (passed count 3 is
on the surface), but run 2 is never processed.  Only a decode failure
(`ValueError`) behaves as the claim describes. -/
theorem per_run_tests_transport_failure_aborts_cycle :
    c2Cycle.2 = some (.attributeError "json") ∧
    glookup c2Cycle.1.passed_count ⟨.num 1, strftimeUTC 100⟩ = some (.num 3) ∧
    JVal.num 1 ∈ runIdsIn c2Cycle.1 ∧
    JVal.num 2 ∉ runIdsIn c2Cycle.1 := by decide

/-- C3 (amended): only the documented lookups have defaults — a result
whose test id is absent from the title lookup is published with title
"Unknown Title"; a run without `is_completed` defaults to not-completed
and is skipped; an absent `runs` key yields an empty, error-free cycle;
an absent `results` key yields no per-result series and no error.
Other expected fields are read by direct indexing and raise `KeyError`
when missing (see the counterexample). -/
theorem documented_defaults_only :
    (∀ (run_id : JVal) (titles : List (JVal × JVal)) (res : JObj) (rest : List JObj) (s : Surface)
       (st tid co cm : JVal) (n : Int),
       objGet res "status_id" = some st → st ≠ JVal.num 10 →
       objGet res "test_id" = some tid → jLookup titles tid = none →
       objGet res "created_on" = some co → pyIntOfJVal co = .ok n →
       objGet res "comment" = some cm →
       (⟨run_id, tid, .str "Unknown Title", st, strftimeUTC n, cm⟩ : ResultLabels) ∈
         (publishResults run_id titles (res :: rest) s).1.result_info.map Prod.fst)
  ∧ (∀ (fields : List String) (tf rf : JVal → Fetch) (r : JObj) (s : Surface),
       objGet r "is_completed" = none →
       processRun fields tf rf r s = (s, none))
  ∧ (∀ (s : Surface) (fields : List String) (tf rf : JVal → Fetch),
       expose_test_reports s fields (.ok none) tf rf = (clearedSurface fields, none))
  ∧ (∀ (run_id : JVal) (titles : List (JVal × JVal)) (s : Surface),
       processResults run_id titles (.ok none) s = (s, none)) := by
  refine ⟨?_, ?_, ?_, ?_⟩
  · intro run_id titles res rest s st tid co cm n hst h10 htid hlk hco hn hcm
    have hstep : publishResults run_id titles (res :: rest) s =
        publishResults run_id titles rest
          (setResultInfo run_id tid (.str "Unknown Title") st (strftimeUTC n) cm s) := by
      simp only [publishResults, (objIndex_ok_iff res "status_id" st).mpr hst,
        (objIndex_ok_iff res "test_id" tid).mpr htid,
        (objIndex_ok_iff res "created_on" co).mpr hco,
        (objIndex_ok_iff res "comment" cm).mpr hcm, hlk, format_timestamp, hn,
        Option.getD_none]
      rw [if_pos h10]
    rw [hstep]
    exact publishResults_keys_mono (self_mem_keys_gset _ _ _)
  · intro fields tf rf r s hnone
    simp [processRun, objGetD, hnone, JVal.truthy]
  · intro s fields tf rf
    rfl
  · intro run_id titles s
    rfl

/-- C3 witness: a result for an unknown test id is published with the
default title "Unknown Title". -/
theorem documented_defaults_only_witness :
    (⟨.num 5, .num 7, .str "Unknown Title", .num 5, strftimeUTC 1700000000, .str "ok"⟩ : ResultLabels) ∈
      (publishResults (.num 5) []
        [[("status_id", .num 5), ("test_id", .num 7), ("created_on", .num 1700000000), ("comment", .str "ok")]]
        (clearedSurface [])).1.result_info.map Prod.fst :=
  documented_defaults_only.1 (.num 5) []
    [("status_id", .num 5), ("test_id", .num 7), ("created_on", .num 1700000000), ("comment", .str "ok")]
    [] (clearedSurface []) (.num 5) (.num 7) (.num 1700000000) (.str "ok") 1700000000
    (by rfl) (by decide) (by rfl) (by rfl) (by rfl) (by rfl) (by rfl)

/-- C5 (amended): field names are unique in the mapping returned by
`load_custom_status_config` for every input, but a duplicated field name
is resolved by the LATER definition silently overwriting the earlier one
(Python dict assignment), not by keeping the earlier one with a
warning. -/
theorem config_keys_unique_later_wins :
    (∀ src : ConfigSource, ((load_custom_status_config src).map Prod.fst).Nodup)
  ∧ (∀ (e1 e2 : JObj) (f : String) (v1 v2 : StatusEntry),
       processEntry e1 = .ok (some (f, v1)) →
       processEntry e2 = .ok (some (f, v2)) →
       load_custom_status_config (.parsed (some [e1, e2])) = [(f, v2)]) := by
  constructor
  · intro src
    cases src with
    | missing => simp [load_custom_status_config]
    | readError => simp [load_custom_status_config]
    | parseError => simp [load_custom_status_config]
    | parsed doc =>
      simp only [load_custom_status_config]
      split
      · simp
      · split
        · next m hgo => exact goEntries_nodup hgo (by simp)
        · simp
  · intro e1 e2 f v1 v2 h1 h2
    simp [load_custom_status_config, goEntries, h1, h2, dictInsert]

/-- C5 witness: the duplicate pair resolves to the later entry. -/
theorem config_keys_unique_later_wins_witness :
    load_custom_status_config (.parsed (some [cfgEntryA, cfgEntryB])) =
      [("f", ⟨.null, "f", .str "b", .str "Number of b tests"⟩)] :=
  config_keys_unique_later_wins.2 cfgEntryA cfgEntryB "f"
    ⟨.null, "f", .str "a", .str "Number of a tests"⟩
    ⟨.null, "f", .str "b", .str "Number of b tests"⟩
    (by rfl) (by rfl)

/-- C8 (amended): when an entry has a (truthy, string) field name and no
explicit metric name, the metric name is derived with Python
`str.replace`: EVERY occurrence of "_count" in the field name is
removed, not only a trailing suffix (see the counterexample for the
divergence on non-trailing occurrences). -/
theorem metric_name_derived_by_replace_all (st : JObj) (f : String)
    (hf : objGet st "field_name" = some (.str f)) (hne : f ≠ "")
    (hmn : objGet st "metric_name" = none) :
    load_custom_status_config (.parsed (some [st])) =
      [(f, ⟨objGetD st "status_id" .null, f, .str (pyReplace f "_count" ""),
            objGetD st "description" (.str ("Number of " ++ f ++ " tests"))⟩)] := by
  have htr : (JVal.str f).truthy = true := by
    simp [JVal.truthy, hne]
  have hpe : processEntry st = .ok (some (f,
      ⟨objGetD st "status_id" .null, f, .str (pyReplace f "_count" ""),
       objGetD st "description" (.str ("Number of " ++ f ++ " tests"))⟩)) := by
    simp [processEntry, objGetD, hf, hmn, htr, pyStr]
  simp [load_custom_status_config, goEntries, hpe, dictInsert]

/-- C8 witness: for field name `x_count` the derived metric name is
`x`. -/
theorem metric_name_derived_by_replace_all_witness :
    load_custom_status_config (.parsed (some [[("field_name", .str "x_count")]])) =
      [("x_count", ⟨.null, "x_count", .str "x", .str "Number of x_count tests"⟩)] :=
  metric_name_derived_by_replace_all [("field_name", .str "x_count")] "x_count"
    (by rfl) (by decide) (by rfl)
